import Mathlib

/-!
Verification of the peer-dependency-checker repository against its
natural-language specification.

The development shallowly embeds the relevant JavaScript from
`src/peer-check.js`, `src/upgrade-check.js`, `bin/pdc.js` and `bin/setup.js`.
External effects are made explicit parameters:
subprocess execution results are values of type `Except CmdFailure String`
(`Except.ok` is a zero-exit run carrying captured stdout, `Except.error`
carries whatever partial output had been captured when the run failed),
filesystem lookups are `Option` values, and the JSON parser of the platform
is a function parameter.  Every definition is translated from the source
file and line range named in its doc comment.
-/

/-- The four package managers the tool recognizes. -/
inductive PkgManager where
  | npm
  | yarn
  | pnpm
  | bun
deriving DecidableEq, Repr

/-- Which lockfiles are present in the project directory.  Field order
follows the checks in `bin/setup.js` lines 95-98. -/
structure LockDir where
  bunLockb : Bool
  pnpmLock : Bool
  yarnLock : Bool
  packageLock : Bool
deriving DecidableEq, Repr

/-- `detectPackageManager` from `bin/setup.js` lines 93-117: lockfile checks
in the order bun.lockb, pnpm-lock.yaml, yarn.lock, package-lock.json, then
binary probes (`binOk`) in the order bun, pnpm, yarn, with npm as the final
fallback. -/
def detectPackageManager (d : LockDir) (binOk : PkgManager → Bool) : PkgManager :=
  if d.bunLockb then PkgManager.bun
  else if d.pnpmLock then PkgManager.pnpm
  else if d.yarnLock then PkgManager.yarn
  else if d.packageLock then PkgManager.npm
  else if binOk PkgManager.bun then PkgManager.bun
  else if binOk PkgManager.pnpm then PkgManager.pnpm
  else if binOk PkgManager.yarn then PkgManager.yarn
  else PkgManager.npm

/-- `getPackageManager` from `src/peer-check.js` lines 28-33 (the same
function appears in `src/upgrade-check.js` lines 40-45): it checks
pnpm-lock.yaml, then yarn.lock, then bun.lockb, and falls back to npm.
It never looks at package-lock.json. -/
def getPackageManager (d : LockDir) : PkgManager :=
  if d.pnpmLock then PkgManager.pnpm
  else if d.yarnLock then PkgManager.yarn
  else if d.bunLockb then PkgManager.bun
  else PkgManager.npm

/-- Whitespace as trimmed by the JavaScript string trim on the ASCII
fragment relevant here. -/
def isJsSpace (c : Char) : Bool :=
  c = ' ' || c = '\t' || c = '\n' || c = '\r'

/-- Character-list version of trim. -/
def trimCharList (l : List Char) : List Char :=
  ((l.dropWhile isJsSpace).reverse.dropWhile isJsSpace).reverse

/-- The trim applied by `runCommandSilent` to captured stdout. -/
def trimString (s : String) : String :=
  String.mk (trimCharList s.data)

/-- The data a failed subprocess run leaves behind: whatever stdout and
stderr had been captured before the non-zero exit, timeout, or overflow. -/
structure CmdFailure where
  outSoFar : String
  errSoFar : String
deriving DecidableEq, Repr

/-- `runCommandSilent` from `src/peer-check.js` lines 15-25 (identical in
`src/upgrade-check.js` lines 17-27): returns the trimmed captured stdout of
a successful run, and the caller-supplied fallback (default null, here
`none`) when `execSync` throws.  The catch clause discards the error object,
so nothing of the captured partial output survives into the return value. -/
def runCommandSilent (exec : Except CmdFailure String) (fallback : Option String) : Option String :=
  match exec with
  | Except.ok out => some (trimString out)
  | Except.error _ => fallback

/-- `runCommand` from the comprehensive upgrade checker script
(src/unnamed/part_001 lines 15-34): returns the captured output of a
successful run; on failure it prints the message and any partial
stdout/stderr to the console and returns null. -/
def runCommand (exec : Except CmdFailure String) : Option String :=
  match exec with
  | Except.ok out => some out
  | Except.error _ => none

/-- `getPeerDependencies` from `src/peer-check.js` lines 54-63.  `exec` is
the result of running `npm info name at version peerDependencies --json`;
`jsonParse` models the platform JSON parser, returning `none` where
`JSON.parse` would throw.  The source returns null when the command failed
or produced empty output, and otherwise the parse result (null on a parse
throw). -/
def getPeerDependencies (jsonParse : String → Option (List (String × String)))
    (exec : Except CmdFailure String) : Option (List (String × String)) :=
  match runCommandSilent exec none with
  | none => none
  | some r => if r = "" then none else jsonParse r

/-- The per-package output line of the `check` action in `bin/pdc.js`
lines 118-135: a successful `npm info` run with non-blank output prints the
peer-dependency text, a successful run with blank output prints
"No peer dependencies required", and a thrown command error prints
"Could not fetch info". -/
def checkRenderLine (pkg : String) (exec : Except CmdFailure String) : String :=
  match exec with
  | Except.ok out =>
    if trimString out = "" then "   |-- No peer dependencies required"
    else "   |-- Peer deps: " ++ trimString out
  | Except.error _ => "   |-- Error: Could not fetch info for " ++ pkg

/-- Split a character list at every occurrence of `sep`, mirroring the
JavaScript string split with a single-character separator. -/
def splitOnChar (sep : Char) : List Char → List (List Char)
  | [] => [[]]
  | c :: cs =>
    match splitOnChar sep cs with
    | [] => [[]]
    | h :: t => if c = sep then [] :: h :: t else (c :: h) :: t

/-- The argument parsing of the `check` and `precheck` actions in
`bin/pdc.js` (lines 76 and 121): when the argument contains an at sign it
is split there and the first two components are destructured into name and
version; otherwise the name is the whole argument and the version defaults
to "latest". -/
def parsePackageArg (pkg : String) : String × String :=
  if pkg.data.contains '@' then
    match splitOnChar '@' pkg.data with
    | n :: v :: _ => (String.mk n, String.mk v)
    | _ => (pkg, "latest")
  else (pkg, "latest")

/-- The `version || latest` substitution applied when the parsed version is
interpolated into the npm command in `bin/pdc.js` lines 77 and 122. -/
def effectiveVersion (v : String) : String :=
  if v = "" then "latest" else v

/-- First-match association-list lookup, the reading of a key from a parsed
JSON object such as `packageJson.scripts` or the dependency maps. -/
def lookupKey : List (String × String) → String → Option String
  | [], _ => none
  | (k, v) :: rest, key => if k = key then some v else lookupKey rest key

/-- Replace the value stored under the first occurrence of `key`, keeping
its position, as assignment to an existing key of a JavaScript object
does. -/
def replaceKey : List (String × String) → String → String → List (String × String)
  | [], _, _ => []
  | (k, v) :: rest, key, val =>
    if k = key then (k, val) :: rest else (k, v) :: replaceKey rest key val

/-- One step of the script merge in `setupPackageScripts`
(`bin/setup.js` lines 158-165): the guard is JavaScript truthiness, so the
value is stored when the key is absent or holds the empty string, and the
entry is left alone otherwise. -/
def setScript (s : List (String × String)) (key val : String) : List (String × String) :=
  match lookupKey s key with
  | none => s ++ [(key, val)]
  | some v => if v = "" then replaceKey s key val else s

/-- The three shortcut scripts of `getScriptsForPackageManager`
(`bin/setup.js` lines 171-177). -/
def commonScripts : List (String × String) :=
  [("pdc:scan", "pdc scan"),
   ("pdc:check", "pdc scan --quick || true"),
   ("pdc:analyze", "pdc analyze --brief || true")]

/-- The pre/post-install hook entries added by every branch of the switch
in `getScriptsForPackageManager` (`bin/setup.js` lines 179-207). -/
def installHookScripts : List (String × String) :=
  [("preinstall", "pdc scan --quick || true"),
   ("postinstall", "pdc analyze --brief || true")]

/-- `getScriptsForPackageManager` from `bin/setup.js` lines 171-208.  The
switch has one branch per package manager; every branch spreads
`commonScripts` and then adds the same two hook entries, so all four
branches produce the same object. -/
def getScriptsForPackageManager : PkgManager → List (String × String)
  | PkgManager.yarn => commonScripts ++ installHookScripts
  | PkgManager.bun => commonScripts ++ installHookScripts
  | PkgManager.pnpm => commonScripts ++ installHookScripts
  | PkgManager.npm => commonScripts ++ installHookScripts

/-- `setupPackageScripts` from `bin/setup.js` lines 145-169, restricted to
its effect on the scripts object: each computed script entry is merged via
`setScript` in `Object.entries` order.  A missing scripts field of the
manifest is initialized to the empty object first, so the input is the
(possibly empty) list of existing entries. -/
def setupPackageScripts (pm : PkgManager) (scripts : List (String × String)) : List (String × String) :=
  (getScriptsForPackageManager pm).foldl (fun acc kv => setScript acc kv.1 kv.2) scripts

/-- The sidecar configuration object written to `.pdcrc.json`.  Its fields
are exactly the keys of the object literal in `bin/setup.js` lines
220-229. -/
structure PdcConfig where
  packageManager : PkgManager
  riskTolerance : String
  autoCheck : Bool
  checkOnInstall : Bool
  checkOnUpgrade : Bool
  excludePackages : List String
  includeDevDependencies : Bool
  outputFormat : String
deriving DecidableEq, Repr

/-- The defaults object of `createConfig` (`bin/setup.js` lines 220-229). -/
def defaultPdcConfig (pm : PkgManager) : PdcConfig :=
  { packageManager := pm
    riskTolerance := "medium"
    autoCheck := true
    checkOnInstall := true
    checkOnUpgrade := true
    excludePackages := []
    includeDevDependencies := true
    outputFormat := "colored" }

/-- `createConfig` from `bin/setup.js` lines 210-233, as a function from
the current content of `.pdcrc.json` (none when the file is absent) to its
content afterwards: an existing file is left untouched, otherwise the
defaults object for the detected package manager is written. -/
def createConfigFile (existing : Option PdcConfig) (pm : PkgManager) : Option PdcConfig :=
  match existing with
  | some c => some c
  | none => some (defaultPdcConfig pm)

/-- The steps of the setup flow that mutate the project, in the order
`main` runs them (`bin/setup.js` lines 69-72): the script merge into the
manifest, then the config-file creation.  The state is the manifest scripts
map paired with the sidecar-file content. -/
def applySetup (pm : PkgManager) (st : List (String × String) × Option PdcConfig) :
    List (String × String) × Option PdcConfig :=
  (setupPackageScripts pm st.1, createConfigFile st.2 pm)

/-- The mutable project state seen by the setup flow: the scripts map of
package.json (`none` when no package.json exists) and the content of
`.pdcrc.json` (`none` when absent). -/
structure SetupState where
  scripts : Option (List (String × String))
  pdcrc : Option PdcConfig
deriving DecidableEq, Repr

/-- `main` of `bin/setup.js` lines 16-91 as a state transformer returning
the final project state and the process exit code.  `showHelp` is the
help-flag check at line 16 (prints and exits 0 before any write); a missing
package.json exits 1 at line 55; `installOk` models whether the
`installPeerDependencyChecker` subprocess calls succeed (a throw is caught
at line 87 and exits 1 before any write); then the script merge and config
creation run, and `testOk` models the `testSetup` smoke test, whose failure
exits 1 without rolling back the writes.  The source reads `--dry-run` in
no place other than its help text, so `dryRun` is accepted and ignored
exactly as the source ignores it. -/
def setupMain (showHelp dryRun installOk testOk : Bool) (d : LockDir)
    (binOk : PkgManager → Bool) (st : SetupState) : SetupState × Nat :=
  if showHelp then (st, 0)
  else
    match st.scripts with
    | none => (st, 1)
    | some scr =>
      if installOk then
        let pm := detectPackageManager d binOk
        (⟨some (setupPackageScripts pm scr), createConfigFile st.pdcrc pm⟩,
         if testOk then 0 else 1)
      else (st, 1)

/-- The critical-package watch list of `analyzePotentialConflicts`
(`src/peer-check.js` lines 71-74). -/
def criticalPackages : List String :=
  ["react", "react-dom", "@types/react", "@types/react-dom",
   "next", "typescript", "@types/node", "eslint"]

/-- Remove the first caret or tilde, the effect of the
`replace` call with a non-global character-class pattern in
`src/peer-check.js` line 80. -/
def dropFirstRangeChar : List Char → List Char
  | [] => []
  | c :: cs => if c = '^' || c = '~' then cs else c :: dropFirstRangeChar cs

/-- The version-string cleanup of `src/peer-check.js` line 80. -/
def stripVersionRange (s : String) : String :=
  String.mk (dropFirstRangeChar s.data)

/-- The merged dependency view `currentDeps` of `src/peer-check.js`
line 68: a spread of dependencies then devDependencies, so a devDependency
entry shadows a dependency entry of the same name. -/
def currentDeps (deps devDeps : List (String × String)) (k : String) : Option String :=
  match lookupKey devDeps k with
  | some v => some v
  | none => lookupKey deps k

/-- One record pushed by `analyzePotentialConflicts`
(`src/peer-check.js` lines 84-88). -/
structure ConflictEntry where
  package : String
  current : String
  peerDeps : List (String × String)
deriving DecidableEq, Repr

/-- The loop body of `analyzePotentialConflicts` (`src/peer-check.js`
lines 78-91) for one watch-list package: skipped unless the package is a
declared dependency with a truthy version, skipped when the peer lookup
returned null or an object with no keys, and otherwise recorded with the
range-stripped current version.  `fetch` models
`getPeerDependencies(pkg, latest)`. -/
def conflictFor (deps devDeps : List (String × String))
    (fetch : String → Option (List (String × String))) (pkg : String) : Option ConflictEntry :=
  match currentDeps deps devDeps pkg with
  | none => none
  | some ver =>
    if ver = "" then none
    else
      match fetch pkg with
      | none => none
      | some peers =>
        if 0 < peers.length then
          some { package := pkg, current := stripVersionRange ver, peerDeps := peers }
        else none

/-- `analyzePotentialConflicts` from `src/peer-check.js` lines 66-94: the
watch-list packages are examined in order and the produced records are
collected. -/
def analyzePotentialConflicts (deps devDeps : List (String × String))
    (fetch : String → Option (List (String × String))) : List ConflictEntry :=
  criticalPackages.filterMap (conflictFor deps devDeps fetch)

/-- The risk classification named by the specification. -/
inductive RiskBucket where
  | compatible
  | conflict
  | breaking
deriving DecidableEq, Repr

/-- Spec-side comparison definition, following the words of specification
section 4.4 step 5: breaking when the version delta is major and either no
peer-dependency data could be fetched or the delta is known-breaking,
conflict when any peer constraint is unsatisfied, compatible otherwise.
No counterpart of this assignment exists in the source. -/
def specAssignRisk (majorDelta : Bool) (fetched : Option (List (String × String)))
    (knownBreaking anyUnsatisfied : Bool) : RiskBucket :=
  if majorDelta && (fetched.isNone || knownBreaking) then RiskBucket.breaking
  else if anyUnsatisfied then RiskBucket.conflict
  else RiskBucket.compatible

/-- The exit behavior of `main` in `src/upgrade-check.js` lines 125-202:
quick mode reports from command output alone and finishes (exit 0); the
full scan reads and parses package.json at line 147, and when that read
throws (missing or unparseable manifest) the rejection handler at lines
210-213 exits 1; with a readable manifest every other failure is swallowed
by `runCommandSilent` and the run exits 0.  `manifest` is the parsed
(dependencies, devDependencies) pair, `none` when reading throws. -/
def upgradeCheckExit (quickMode : Bool)
    (manifest : Option (List (String × String) × List (String × String))) : Nat :=
  if quickMode then 0
  else
    match manifest with
    | none => 1
    | some _ => 0

/-- The exit behavior of `main` in `src/peer-check.js` lines 96-157: brief
mode only inspects command output (exit 0); the full analysis calls
`analyzePotentialConflicts`, whose package.json read at line 67 throws on a
missing manifest, and the rejection handler at lines 165-168 exits 1. -/
def peerCheckExit (briefMode : Bool)
    (manifest : Option (List (String × String) × List (String × String))) : Nat :=
  if briefMode then 0
  else
    match manifest with
    | none => 1
    | some _ => 0

/-- Truthiness of a script entry: the key is present with a non-empty
value.  This is the guard under which `setupPackageScripts` leaves an entry
alone. -/
def truthyAt (s : List (String × String)) (k : String) : Prop :=
  ∃ v, lookupKey s k = some v ∧ v ≠ ""

theorem lookupKey_append_of_some {s : List (String × String)} {k v : String}
    (t : List (String × String)) (h : lookupKey s k = some v) :
    lookupKey (s ++ t) k = some v := by
  induction s with
  | nil => simp [lookupKey] at h
  | cons hd tl ih =>
    obtain ⟨a, b⟩ := hd
    by_cases hak : a = k
    · simp only [lookupKey, List.cons_append, if_pos hak] at h ⊢
      exact h
    · simp only [lookupKey, List.cons_append, if_neg hak] at h ⊢
      exact ih h

theorem lookupKey_append_self {s : List (String × String)} {k : String} (v : String)
    (h : lookupKey s k = none) : lookupKey (s ++ [(k, v)]) k = some v := by
  induction s with
  | nil => simp [lookupKey]
  | cons hd tl ih =>
    obtain ⟨a, b⟩ := hd
    by_cases hak : a = k
    · simp only [lookupKey, if_pos hak] at h
      exact Option.noConfusion h
    · simp only [lookupKey, List.cons_append, if_neg hak] at h ⊢
      exact ih h

theorem lookupKey_append_single_other {s : List (String × String)} {k k2 : String}
    (v : String) (h : k ≠ k2) : lookupKey (s ++ [(k, v)]) k2 = lookupKey s k2 := by
  induction s with
  | nil => simp [lookupKey, h]
  | cons hd tl ih =>
    obtain ⟨a, b⟩ := hd
    by_cases hak : a = k2
    · simp [lookupKey, List.cons_append, hak]
    · simp only [lookupKey, List.cons_append, if_neg hak]
      exact ih

theorem lookupKey_replaceKey_self {s : List (String × String)} {k v : String} (w : String)
    (h : lookupKey s k = some v) : lookupKey (replaceKey s k w) k = some w := by
  induction s with
  | nil => simp [lookupKey] at h
  | cons hd tl ih =>
    obtain ⟨a, b⟩ := hd
    by_cases hak : a = k
    · simp [replaceKey, lookupKey, hak]
    · simp only [lookupKey, if_neg hak] at h
      simp only [replaceKey, if_neg hak, lookupKey]
      exact ih h

theorem lookupKey_replaceKey_other {s : List (String × String)} {k k2 : String} (w : String)
    (h : k ≠ k2) : lookupKey (replaceKey s k w) k2 = lookupKey s k2 := by
  induction s with
  | nil => simp [replaceKey]
  | cons hd tl ih =>
    obtain ⟨a, b⟩ := hd
    by_cases hak : a = k
    · subst hak
      simp only [replaceKey, if_pos rfl, lookupKey, if_neg h]
    · simp only [replaceKey, if_neg hak, lookupKey]
      by_cases hak2 : a = k2
      · simp [hak2]
      · rw [if_neg hak2, if_neg hak2]
        exact ih

theorem lookupKey_setScript_other {s : List (String × String)} {key k2 : String}
    (val : String) (h : key ≠ k2) :
    lookupKey (setScript s key val) k2 = lookupKey s k2 := by
  cases hl : lookupKey s key with
  | none =>
    simp only [setScript, hl]
    exact lookupKey_append_single_other val h
  | some w =>
    simp only [setScript, hl]
    by_cases hw : w = ""
    · rw [if_pos hw]
      exact lookupKey_replaceKey_other val h
    · rw [if_neg hw]

theorem setScript_of_truthy {s : List (String × String)} {key : String} (val : String)
    (h : truthyAt s key) : setScript s key val = s := by
  obtain ⟨w, hw, hne⟩ := h
  simp only [setScript, hw, if_neg hne]

theorem truthyAt_setScript_self {s : List (String × String)} {key val : String}
    (hv : val ≠ "") : truthyAt (setScript s key val) key := by
  cases hl : lookupKey s key with
  | none =>
    simp only [setScript, hl]
    exact ⟨val, lookupKey_append_self val hl, hv⟩
  | some w =>
    simp only [setScript, hl]
    by_cases hw : w = ""
    · rw [if_pos hw]
      exact ⟨val, lookupKey_replaceKey_self val hl, hv⟩
    · rw [if_neg hw]
      exact ⟨w, hl, hw⟩

theorem truthyAt_setScript_mono {s : List (String × String)} {k2 key val : String}
    (h : truthyAt s k2) : truthyAt (setScript s key val) k2 := by
  by_cases hk : key = k2
  · subst hk
    rw [setScript_of_truthy val h]
    exact h
  · obtain ⟨w, hw, hne⟩ := h
    refine ⟨w, ?_, hne⟩
    rw [lookupKey_setScript_other val hk]
    exact hw

theorem truthyAt_foldl_set {ps : List (String × String)} :
    ∀ {s : List (String × String)} {k : String}, truthyAt s k →
      truthyAt (ps.foldl (fun acc kv => setScript acc kv.1 kv.2) s) k := by
  induction ps with
  | nil => intro s k h; simpa using h
  | cons q rest ih =>
    intro s k h
    simp only [List.foldl_cons]
    exact ih (truthyAt_setScript_mono h)

theorem truthyAt_foldl_set_all {ps : List (String × String)}
    (hps : ∀ p ∈ ps, p.2 ≠ "") :
    ∀ {s : List (String × String)} (p : String × String), p ∈ ps →
      truthyAt (ps.foldl (fun acc kv => setScript acc kv.1 kv.2) s) p.1 := by
  induction ps with
  | nil => intro s p hp; simp at hp
  | cons q rest ih =>
    intro s p hp
    simp only [List.foldl_cons]
    rcases List.mem_cons.mp hp with h | h
    · subst h
      exact truthyAt_foldl_set (truthyAt_setScript_self (hps p (List.mem_cons_self _ _)))
    · exact ih (fun r hr => hps r (List.mem_cons_of_mem _ hr)) p h

theorem foldl_set_of_truthy {ps : List (String × String)} :
    ∀ {s : List (String × String)}, (∀ p ∈ ps, truthyAt s p.1) →
      ps.foldl (fun acc kv => setScript acc kv.1 kv.2) s = s := by
  induction ps with
  | nil => intro s _; rfl
  | cons q rest ih =>
    intro s h
    have hq : setScript s q.1 q.2 = s := setScript_of_truthy q.2 (h q (List.mem_cons_self _ _))
    simp only [List.foldl_cons, hq]
    exact ih (fun p hp => h p (List.mem_cons_of_mem _ hp))

theorem lookupKey_foldl_set_preserved {ps : List (String × String)} :
    ∀ {s : List (String × String)} {k v : String},
      lookupKey s k = some v → v ≠ "" →
      lookupKey (ps.foldl (fun acc kv => setScript acc kv.1 kv.2) s) k = some v := by
  induction ps with
  | nil => intro s k v h _; simpa using h
  | cons q rest ih =>
    intro s k v h hv
    simp only [List.foldl_cons]
    by_cases hk : q.1 = k
    · have hs : setScript s q.1 q.2 = s := by
        refine setScript_of_truthy q.2 ?_
        rw [hk]
        exact ⟨v, h, hv⟩
      rw [hs]
      exact ih h hv
    · refine ih ?_ hv
      rw [lookupKey_setScript_other q.2 hk]
      exact h

theorem getScripts_values_nonempty (pm : PkgManager) :
    ∀ p ∈ getScriptsForPackageManager pm, p.2 ≠ "" := by
  cases pm <;> decide

theorem setupPackageScripts_second_run (pm : PkgManager) (s : List (String × String)) :
    setupPackageScripts pm (setupPackageScripts pm s) = setupPackageScripts pm s := by
  unfold setupPackageScripts
  exact foldl_set_of_truthy
    (fun p hp => truthyAt_foldl_set_all (getScripts_values_nonempty pm) p hp)

theorem conflictFor_some_inv {deps devDeps : List (String × String)}
    {fetch : String → Option (List (String × String))} {pkg : String} {e : ConflictEntry}
    (h : conflictFor deps devDeps fetch pkg = some e) :
    ∃ peers, fetch pkg = some peers ∧ 0 < peers.length ∧ e.package = pkg := by
  cases hcd : currentDeps deps devDeps pkg with
  | none =>
    simp only [conflictFor, hcd] at h
    exact Option.noConfusion h
  | some ver =>
    simp only [conflictFor, hcd] at h
    by_cases hv : ver = ""
    · rw [if_pos hv] at h
      exact Option.noConfusion h
    · rw [if_neg hv] at h
      cases hfp : fetch pkg with
      | none =>
        simp only [hfp] at h
        exact Option.noConfusion h
      | some peers =>
        simp only [hfp] at h
        by_cases hlen : 0 < peers.length
        · rw [if_pos hlen] at h
          have he := Option.some.inj h
          refine ⟨peers, rfl, hlen, ?_⟩
          rw [← he]
        · rw [if_neg hlen] at h
          exact Option.noConfusion h

/-- C1 (counterexample): for a declared critical package (react at 18.0.0)
whose latest major version has unfetchable peer data, the specification
side assigns the breaking bucket, but `analyzePotentialConflicts` emits no
record for the package at all — no risk bucket of any kind is assigned, so
the claimed breaking classification does not happen. -/
theorem analyze_drops_major_unfetched_react :
    specAssignRisk true none false false = RiskBucket.breaking ∧
    analyzePotentialConflicts [("react", "18.0.0")] [] (fun _ => none) = [] := by decide

/-- C1 (amended): every record produced by `analyzePotentialConflicts`
comes from a watch-list package whose peer-dependency fetch succeeded with
a non-empty map; a package whose peer data could not be fetched is omitted
from the output entirely, and in particular is never classified
compatible — or anything else. -/
theorem analyze_reports_only_fetched_nonempty
    (deps devDeps : List (String × String))
    (fetch : String → Option (List (String × String))) (e : ConflictEntry)
    (h : e ∈ analyzePotentialConflicts deps devDeps fetch) :
    ∃ peers, fetch e.package = some peers ∧ 0 < peers.length := by
  simp only [analyzePotentialConflicts] at h
  obtain ⟨pkg, hmem, hf⟩ := List.mem_filterMap.mp h
  obtain ⟨peers, hfp, hlen, hpkg⟩ := conflictFor_some_inv hf
  refine ⟨peers, ?_, hlen⟩
  rw [hpkg]
  exact hfp

/-- C1 (witness): the amended statement applied to a concrete run in which
the react fetch succeeds with one peer entry. -/
theorem analyze_reports_only_fetched_nonempty_inst :
    ∃ peers,
      (fun p => if p = "react" then some [("react-dom", "^19.0.0")] else none)
        ({ package := "react", current := "18.0.0",
           peerDeps := [("react-dom", "^19.0.0")] } : ConflictEntry).package = some peers ∧
      0 < peers.length :=
  analyze_reports_only_fetched_nonempty [("react", "18.0.0")] []
    (fun p => if p = "react" then some [("react-dom", "^19.0.0")] else none)
    { package := "react", current := "18.0.0", peerDeps := [("react-dom", "^19.0.0")] }
    (by decide)

/-- C2 (counterexample): the detection function of the analysis scripts,
`getPackageManager`, does not follow the claimed precedence: with both
bun.lockb and pnpm-lock.yaml present it returns pnpm, not bun. -/
theorem getPackageManager_bun_pnpm_returns_pnpm :
    getPackageManager ⟨true, true, false, false⟩ = PkgManager.pnpm ∧
    getPackageManager ⟨true, true, false, false⟩ ≠ PkgManager.bun := by decide

/-- C2 (amended): the setup-flow detector `detectPackageManager` checks
lockfiles in the order bun.lockb, pnpm-lock.yaml, yarn.lock,
package-lock.json and returns the manager of the first one present; the
analysis-flow detector `getPackageManager` instead checks pnpm-lock.yaml,
then yarn.lock, then bun.lockb (never package-lock.json), so bun wins there
only when the pnpm and yarn lockfiles are absent — which covers the
bun.lockb-plus-package-lock.json case of the claim. -/
theorem lockfile_detection_precedence :
    (∀ (d : LockDir) (b : PkgManager → Bool), d.bunLockb = true →
      detectPackageManager d b = PkgManager.bun) ∧
    (∀ (d : LockDir) (b : PkgManager → Bool), d.bunLockb = false → d.pnpmLock = true →
      detectPackageManager d b = PkgManager.pnpm) ∧
    (∀ (d : LockDir) (b : PkgManager → Bool), d.bunLockb = false → d.pnpmLock = false →
      d.yarnLock = true → detectPackageManager d b = PkgManager.yarn) ∧
    (∀ (d : LockDir) (b : PkgManager → Bool), d.bunLockb = false → d.pnpmLock = false →
      d.yarnLock = false → d.packageLock = true → detectPackageManager d b = PkgManager.npm) ∧
    (∀ d : LockDir, d.pnpmLock = false → d.yarnLock = false → d.bunLockb = true →
      getPackageManager d = PkgManager.bun) ∧
    (∀ d : LockDir, d.pnpmLock = true → getPackageManager d = PkgManager.pnpm) := by
  refine ⟨?_, ?_, ?_, ?_, ?_, ?_⟩ <;> intros <;>
    simp [detectPackageManager, getPackageManager, *]

/-- C2 (witness): the amended statement applied to concrete directories,
among them the directory holding both bun.lockb and package-lock.json, on
which both detectors agree on bun. -/
theorem lockfile_detection_precedence_inst :
    detectPackageManager ⟨true, false, false, true⟩ (fun _ => false) = PkgManager.bun ∧
    getPackageManager ⟨true, false, false, true⟩ = PkgManager.bun ∧
    getPackageManager ⟨false, true, false, false⟩ = PkgManager.pnpm :=
  ⟨lockfile_detection_precedence.1 ⟨true, false, false, true⟩ (fun _ => false) rfl,
   lockfile_detection_precedence.2.2.2.2.1 ⟨true, false, false, true⟩ rfl rfl rfl,
   lockfile_detection_precedence.2.2.2.2.2 ⟨false, true, false, false⟩ rfl⟩

/-- C3 (code bug): the setup flow ignores the dry-run flag its own help
text documents.  First part: `setupMain` produces identical writes and exit
code whether or not dry-run is requested.  Second part: a dry-run
invocation on a project with an empty scripts map and no config file still
installs all five script entries and writes the default config. -/
theorem setup_dry_run_still_writes :
    (∀ (h i t : Bool) (d : LockDir) (b : PkgManager → Bool) (st : SetupState),
      setupMain h true i t d b st = setupMain h false i t d b st) ∧
    (setupMain false true true true ⟨false, false, false, false⟩ (fun _ => false)
        ⟨some [], none⟩).1 =
      ⟨some (commonScripts ++ installHookScripts), some (defaultPdcConfig PkgManager.npm)⟩ :=
  ⟨fun _ _ _ _ _ _ => rfl, by decide⟩

/-- C4 (counterexample): a successful peer-dependency query with empty
output — exactly what the registry query produces for a package declaring
zero peer dependencies, and what the check command itself renders as
"No peer dependencies required" — makes `getPeerDependencies` return null
even though a parser that would accept the output is available, and that
null equals the result of a failed fetch, so the two situations are not
distinguished by its result. -/
theorem getPeerDependencies_empty_success_is_null :
    getPeerDependencies (fun _ => some []) (Except.ok "") = none ∧
    getPeerDependencies (fun _ => some []) (Except.error ⟨"", ""⟩) = none ∧
    checkRenderLine "lodash" (Except.ok "") = "   |-- No peer dependencies required" := by decide

/-- C4 (amended): `getPeerDependencies` returns null on fetch failure, on
parse failure, and also on a successful fetch with empty output (the
zero-peer-dependency response), so its result does not separate lookup
failure from an absence of peer dependencies; it returns a parsed map only
for non-blank successful output.  The two distinct user-facing messages
exist only in the check action of the CLI, which invokes npm itself and
distinguishes a thrown command from blank output. -/
theorem getPeerDependencies_null_signals :
    (∀ (jsonParse : String → Option (List (String × String))) (e : CmdFailure),
      getPeerDependencies jsonParse (Except.error e) = none) ∧
    (∀ jsonParse : String → Option (List (String × String)),
      getPeerDependencies jsonParse (Except.ok "") = none) ∧
    (∀ (pkg : String) (e : CmdFailure),
      checkRenderLine pkg (Except.error e) = "   |-- Error: Could not fetch info for " ++ pkg) ∧
    (∀ pkg : String,
      checkRenderLine pkg (Except.ok "") = "   |-- No peer dependencies required") ∧
    getPeerDependencies (fun r => if r = "json" then some [("react-dom", "^19.0.0")] else none)
      (Except.ok "json") = some [("react-dom", "^19.0.0")] :=
  ⟨fun _ _ => rfl, fun _ => rfl, fun _ _ => rfl, fun _ => rfl, by decide⟩

/-- C5 (counterexample): the scoped package argument with no explicit
version is split at its leading at sign, so the parsed name is the empty
string and the parsed version is the remainder — not the claimed full name
with version "latest". -/
theorem parsePackageArg_scoped_name :
    parsePackageArg "@types/node" = ("", "types/node") ∧
    parsePackageArg "@types/node" ≠ ("@types/node", "latest") := by decide

/-- C5 (amended): for an argument containing no at sign the parsed pair is
the full argument with version "latest"; an argument containing an at sign
is split there, which handles name-at-version arguments but misparses
scoped names. -/
theorem parsePackageArg_defaults :
    (∀ pkg : String, pkg.data.contains '@' = false → parsePackageArg pkg = (pkg, "latest")) ∧
    parsePackageArg "react@19" = ("react", "19") ∧
    parsePackageArg "@types/node" = ("", "types/node") :=
  ⟨fun pkg h => by unfold parsePackageArg; rw [h]; rfl, by decide, by decide⟩

/-- C5 (witness): the amended statement applied to an unscoped argument
without a version. -/
theorem parsePackageArg_defaults_inst :
    parsePackageArg "lodash" = ("lodash", "latest") :=
  parsePackageArg_defaults.1 "lodash" (by decide)

/-- C6: the mutating steps of setup are idempotent — a second run leaves
both the scripts map and the sidecar-config content exactly as the first
run left them — and an existing sidecar config is returned unchanged, never
overwritten. -/
theorem applySetup_idem (pm : PkgManager) (st : List (String × String) × Option PdcConfig) :
    applySetup pm (applySetup pm st) = applySetup pm st ∧
    ∀ c : PdcConfig, st.2 = some c → (applySetup pm st).2 = some c := by
  constructor
  · show (setupPackageScripts pm (setupPackageScripts pm st.1),
          createConfigFile (createConfigFile st.2 pm) pm) =
        (setupPackageScripts pm st.1, createConfigFile st.2 pm)
    rw [setupPackageScripts_second_run]
    cases st.2 with
    | none => rfl
    | some c => rfl
  · intro c hc
    show createConfigFile st.2 pm = some c
    rw [hc]
    rfl

/-- C6 (witness): the idempotence statement applied to a concrete project
that already carries a script entry and a sidecar config recording a
different package manager; the config survives. -/
theorem applySetup_idem_inst :
    applySetup PkgManager.npm
        (applySetup PkgManager.npm
          ([("preinstall", "echo original")], some (defaultPdcConfig PkgManager.yarn))) =
      applySetup PkgManager.npm
        ([("preinstall", "echo original")], some (defaultPdcConfig PkgManager.yarn)) ∧
    (applySetup PkgManager.npm
        ([("preinstall", "echo original")], some (defaultPdcConfig PkgManager.yarn))).2 =
      some (defaultPdcConfig PkgManager.yarn) :=
  ⟨(applySetup_idem _ _).1, (applySetup_idem _ _).2 _ rfl⟩

/-- C7 (counterexample): a script key present with the empty-string value
is a pre-existing entry, yet the truthiness guard of the merge treats it as
absent and overwrites it with the pdc hook command. -/
theorem setupPackageScripts_overwrites_empty_value :
    lookupKey [("preinstall", "")] "preinstall" = some "" ∧
    lookupKey (setupPackageScripts PkgManager.npm [("preinstall", "")]) "preinstall" =
      some "pdc scan --quick || true" := by decide

/-- C7 (amended): the script merge never changes the value of a key that
is present with a non-empty value; only absent keys and keys holding the
empty string receive the pdc scripts. -/
theorem setupPackageScripts_preserves_nonempty (pm : PkgManager)
    (s : List (String × String)) (k v : String)
    (h1 : lookupKey s k = some v) (h2 : v ≠ "") :
    lookupKey (setupPackageScripts pm s) k = some v :=
  lookupKey_foldl_set_preserved h1 h2

/-- C7 (witness): the amended statement applied to the example of the
claim: a pre-existing preinstall of "echo original" is preserved. -/
theorem setupPackageScripts_preserves_nonempty_inst :
    lookupKey (setupPackageScripts PkgManager.npm [("preinstall", "echo original")])
      "preinstall" = some "echo original" :=
  setupPackageScripts_preserves_nonempty PkgManager.npm [("preinstall", "echo original")]
    "preinstall" "echo original" rfl (by decide)

/-- C8 (counterexample): with no readable package.json, the full scan and
the full analysis flows both exit with code 1, not with the claimed code
0. -/
theorem scan_analyze_missing_manifest_exit_one :
    upgradeCheckExit false none = 1 ∧ peerCheckExit false none = 1 := by decide

/-- C8 (amended): the quick-scan and brief-analysis flows never read the
manifest and always exit 0; the full scan and full analysis flows exit 1
when the manifest read throws and 0 when it succeeds; and setup without a
manifest exits 1. -/
theorem scan_analyze_exit_codes :
    (∀ m, upgradeCheckExit true m = 0) ∧
    (∀ m, peerCheckExit true m = 0) ∧
    upgradeCheckExit false none = 1 ∧
    peerCheckExit false none = 1 ∧
    (∀ m, upgradeCheckExit false (some m) = 0) ∧
    (∀ m, peerCheckExit false (some m) = 0) ∧
    (∀ (dr i t : Bool) (d : LockDir) (b : PkgManager → Bool) (c : Option PdcConfig),
      (setupMain false dr i t d b ⟨none, c⟩).2 = 1) :=
  ⟨fun _ => rfl, fun _ => rfl, rfl, rfl, fun _ => rfl, fun _ => rfl,
   fun _ _ _ _ _ _ => rfl⟩

/-- C9 (counterexample): the failure value returned by `runCommandSilent`
is the caller-supplied fallback and is identical for failures with
different captured partial output, so it carries none of the partial
stdout/stderr; likewise `runCommand` returns a bare null on failure. -/
theorem runCommandSilent_failure_discards_output :
    runCommandSilent (Except.error ⟨"captured stdout text", "captured stderr text"⟩) none = none ∧
    runCommandSilent (Except.error ⟨"", ""⟩) none = none ∧
    runCommand (Except.error ⟨"captured stdout text", "captured stderr text"⟩) = none := by
  decide

/-- C9 (amended): the process runners never propagate an exception — they
are total functions — and on success return the captured (for
`runCommandSilent`, trimmed) output; on any failure `runCommandSilent`
returns the caller-supplied fallback, which does not contain the partial
output, and `runCommand` returns null after printing the partial output. -/
theorem runCommandSilent_failure_contract :
    (∀ (out : String) (fb : Option String),
      runCommandSilent (Except.ok out) fb = some (trimString out)) ∧
    (∀ (e : CmdFailure) (fb : Option String), runCommandSilent (Except.error e) fb = fb) ∧
    (∀ out : String, runCommand (Except.ok out) = some out) ∧
    (∀ e : CmdFailure, runCommand (Except.error e) = none) :=
  ⟨fun _ _ => rfl, fun _ _ => rfl, fun _ => rfl, fun _ => rfl⟩

/-- C10: when no sidecar config exists, setup writes exactly the defaults
object: the detected package manager, medium risk tolerance, the four
boolean flags set to true, an empty exclude list, and colored output — and
nothing else, the written object having exactly the fields of
`PdcConfig`. -/
theorem createConfigFile_fresh_defaults (pm : PkgManager) :
    createConfigFile none pm =
      some { packageManager := pm
             riskTolerance := "medium"
             autoCheck := true
             checkOnInstall := true
             checkOnUpgrade := true
             excludePackages := []
             includeDevDependencies := true
             outputFormat := "colored" } := rfl
